import Mathlib

set_option autoImplicit false

/-!
Verification of the convergence engine in
`candictl/pkg/kubernetes/actions/converge/node.go`: node-group upsert
(create with fallback to merge-patch), idempotent deletion, readiness
aggregation and the bounded retry executor the operations run under.

Each attempt closure passed to the retry loop is embedded as a pure
function taking the results of its cluster-API calls as arguments; `none`
stands for the Go `nil` error (success of the attempt) and `some e` for a
returned error.
-/

namespace Converge

/-- Errors produced by the cluster API client.  The code inspects errors only
through the predicates `errors.IsAlreadyExists` and `errors.IsNotFound`; every
other error is opaque and carried with its message. -/
inductive Err where
  | alreadyExists
  | notFound
  | other (msg : String)
deriving DecidableEq

/-- Translation of `errors.IsAlreadyExists` for a non-nil error. -/
def isAlreadyExists : Err → Bool
  | .alreadyExists => true
  | _ => false

/-- Translation of `errors.IsNotFound` for a non-nil error. -/
def isNotFound : Err → Bool
  | .notFound => true
  | _ => false

/-- One entry of a node status condition list (`v1.NodeCondition`), restricted
to the two fields the code reads. -/
structure NodeCondition where
  type : String
  status : String
deriving DecidableEq

/-- The constant `apiv1.NodeReady`. -/
def nodeReady : String := "Ready"

/-- The constant `apiv1.ConditionTrue`. -/
def conditionTrue : String := "True"

/-- A cluster node (`v1.Node`), restricted to the fields the code reads: its
name and its status conditions. -/
structure Node where
  name : String
  conditions : List NodeCondition
deriving DecidableEq

/-- A retry policy as passed to `retry.StartLoop` and `retry.StartSilentLoop`:
the attempt bound and the sleep interval between attempts. -/
structure AttemptPolicy where
  maxAttempts : Nat
  intervalSeconds : Nat
deriving DecidableEq

/-- Policy at the `retry.StartLoop` call site of `CreateNodeGroup`
(node.go line 69). -/
def createNodeGroupPolicy : AttemptPolicy := ⟨45, 15⟩

/-- Policy at the `retry.StartSilentLoop` call site of `GetCloudConfig`
(node.go line 43). -/
def getCloudConfigPolicy : AttemptPolicy := ⟨45, 5⟩

/-- Policy at the `retry.StartLoop` call site of `WaitForSingleNodeBecomeReady`
(node.go line 97). -/
def waitForSingleNodePolicy : AttemptPolicy := ⟨100, 20⟩

/-- Policy at the `retry.StartLoop` call site of `WaitForNodesBecomeReady`
(node.go line 116). -/
def waitForNodesPolicy : AttemptPolicy := ⟨100, 20⟩

/-- Policy at the `retry.StartLoop` call site of `WaitForNodesListBecomeReady`
(node.go line 153). -/
def waitForNodesListPolicy : AttemptPolicy := ⟨100, 20⟩

/-- Policy at the `retry.StartLoop` call site of `GetNodeGroupTemplates`
(node.go line 198). -/
def getNodeGroupTemplatesPolicy : AttemptPolicy := ⟨10, 5⟩

/-- Policy at the `retry.StartLoop` call site of `DeleteNode`
(node.go line 219). -/
def deleteNodePolicy : AttemptPolicy := ⟨45, 10⟩

/-- Policy at the `retry.StartLoop` call site of `DeleteNodeGroup`
(node.go line 230). -/
def deleteNodeGroupPolicy : AttemptPolicy := ⟨45, 10⟩

/-- Modelled from the spec: the bounded retry executor of
`candictl/pkg/util/retry` (its source is not part of this excerpt; only the
call sites are).  `runCount attempt i n` performs attempt invocations
`i, i + 1, ...` with `n` invocations of budget left: it stops at the first
invocation returning `none` (success), otherwise exhausts the budget and
returns the result of the final invocation; the second component is the number
of invocations actually made. -/
def runCount (attempt : Nat → Option Err) : Nat → Nat → Option Err × Nat
  | _, 0 => (none, 0)
  | i, n + 1 =>
    match attempt i with
    | none => (none, 1)
    | some e =>
      match n with
      | 0 => (some e, 1)
      | m + 1 =>
        let r := runCount attempt (i + 1) (m + 1)
        (r.1, r.2 + 1)

/-- Modelled from the spec: `retry.StartLoop label maxAttempts interval task`
invokes the task up to `maxAttempts` times and returns the first success, or
the error of the last attempt once the budget is exhausted. -/
def retryRun (policy : AttemptPolicy) (attempt : Nat → Option Err) : Option Err :=
  (runCount attempt 1 policy.maxAttempts).1

/-- The attempt closure of `CreateNodeGroup` (node.go lines 69-93).  The
cluster interactions are passed in as the results they produce: `createRes` is
the error of `Dynamic().Resource(..).Create` (`none` meaning success),
`marshalRes` the result of `doc.MarshalJSON()`, and `patchRes content` the
error of `Patch(name, MergePatchType, content)`.  Faithful to the source, a
create error that is not AlreadyExists falls through to the final
`return nil`. -/
def createNodeGroupAttempt (createRes : Option Err)
    (marshalRes : Except Err (List Nat)) (patchRes : List Nat → Option Err) :
    Option Err :=
  match createRes with
  | none => none
  | some e =>
    if isAlreadyExists e then
      match marshalRes with
      | .error me => some me
      | .ok content =>
        match patchRes content with
        | some pe => some pe
        | none => none
    else
      none

/-- The condition scan performed by the readiness loops (node.go lines
103-109, 125-131, 168-174): a node counts as ready when some condition has
type `Ready` with status `True`. -/
def nodeIsReady (node : Node) : Bool :=
  node.conditions.any fun c => c.type == nodeReady && c.status == conditionTrue

/-- The attempt closure of `WaitForSingleNodeBecomeReady` (node.go lines
97-112): `fetchRes` is the result of `Nodes().Get(nodeName)`. -/
def waitForSingleNodeAttempt (nodeName : String) (fetchRes : Except Err Node) :
    Option Err :=
  match fetchRes with
  | .error e => some e
  | .ok node =>
    if nodeIsReady node then none
    else some (.other ("node \x22" ++ nodeName ++ "\x22 is not Ready yet"))

/-- The `readyNodes` set built by the group readiness loops (node.go lines
122-132 and 165-175): the names of the listed nodes having a true `Ready`
condition.  The Go code stores them in a `map[string]struct\x7b\x7d`; the
deduplicated name list has the same cardinality and membership. -/
def readyNames (items : List Node) : List String :=
  ((items.filter nodeIsReady).map Node.name).dedup

/-- One per-node line of the progress message (node.go lines 135-141 and
178-184). -/
def nodeLine (ready : List String) (node : Node) : String :=
  "* " ++ node.name ++ " | " ++
    (if ready.contains node.name then ("Ready" : String) else ("NotReady" : String)) ++ "\n"

/-- Translation of `strings.TrimSuffix`: when the suffix is present it is cut
off, otherwise the string is returned unchanged (the suffix test is performed
on the character lists). -/
def trimSuffix (s suf : String) : String :=
  if suf.data.isSuffixOf s.data then s.dropRight suf.length else s

/-- The progress message built by the group readiness loops (node.go lines
134-141 and 177-184): a leading count line followed by one line per listed
node, in list order. -/
def readinessMessage (items : List Node) (desiredReadyNodes : Int) : String :=
  "Nodes Ready " ++ toString (readyNames items).length ++ " of " ++
    toString desiredReadyNodes ++ "\n" ++
    String.join (items.map (nodeLine (readyNames items)))

/-- The attempt closure of `WaitForNodesBecomeReady` (node.go lines 116-149):
`listRes` is the result of listing the nodes selected by the group label. -/
def waitForNodesAttempt (listRes : Except Err (List Node))
    (desiredReadyNodes : Int) : Option Err :=
  match listRes with
  | .error e => some e
  | .ok items =>
    let message := readinessMessage items desiredReadyNodes
    if ((readyNames items).length : Int) ≥ desiredReadyNodes then none
    else some (.other (trimSuffix message ("\n")))

/-- The fetch loop of `WaitForNodesListBecomeReady` (node.go lines 157-163):
each name is fetched in turn and the first failure aborts the attempt. -/
def fetchAll (fetch : String → Except Err Node) :
    List String → Except Err (List Node)
  | [] => .ok []
  | n :: rest =>
    match fetch n with
    | .error e => .error e
    | .ok node =>
      match fetchAll fetch rest with
      | .error e => .error e
      | .ok nodes => .ok (node :: nodes)

/-- The attempt closure of `WaitForNodesListBecomeReady` (node.go lines
153-192): `fetch` gives the result of `Nodes().Get` for each requested name;
`desiredReadyNodes` is the length of the request list. -/
def waitForNodesListAttempt (fetch : String → Except Err Node)
    (nodes : List String) : Option Err :=
  match fetchAll fetch nodes with
  | .error e => some e
  | .ok items =>
    let desiredReadyNodes := nodes.length
    let message := readinessMessage items (desiredReadyNodes : Int)
    if (readyNames items).length ≥ desiredReadyNodes then none
    else some (.other (trimSuffix message ("\n")))

/-- The attempt closure of `DeleteNode` (node.go lines 219-226): `deleteRes`
is the error of `Nodes().Delete` (`none` meaning success). -/
def deleteNodeAttempt (deleteRes : Option Err) : Option Err :=
  match deleteRes with
  | some e => if isNotFound e then none else some e
  | none => none

/-- The attempt closure of `DeleteNodeGroup` (node.go lines 230-237):
`deleteRes` is the error of `Dynamic().Resource(..).Delete`. -/
def deleteNodeGroupAttempt (deleteRes : Option Err) : Option Err :=
  match deleteRes with
  | some e => if isNotFound e then none else some e
  | none => none

/-- The standard base64 alphabet of `base64.StdEncoding`. -/
def base64Alphabet : List Char :=
  String.toList ("ABCDEFGHIJKLMNOPQRSTUVWXYZabcdefghijklmnopqrstuvwxyz0123456789+/")

/-- Alphabet character at a 6-bit index. -/
def base64Char (n : Nat) : Char := base64Alphabet.getD n 'A'

/-- Translation of `base64.StdEncoding.EncodeToString` on byte lists (bytes as
naturals reduced mod 256): groups of three bytes become four alphabet
characters, with `=` padding for a trailing group of one or two bytes; empty
input encodes to the empty string. -/
def base64Encode : List Nat → String
  | [] => ""
  | [b0] =>
    String.mk [base64Char (b0 % 256 / 4), base64Char (b0 % 256 % 4 * 16), '=', '=']
  | [b0, b1] =>
    String.mk [base64Char (b0 % 256 / 4),
      base64Char (b0 % 256 % 4 * 16 + b1 % 256 / 16),
      base64Char (b1 % 256 % 16 * 4), '=']
  | b0 :: b1 :: b2 :: rest =>
    String.mk [base64Char (b0 % 256 / 4),
      base64Char (b0 % 256 % 4 * 16 + b1 % 256 / 16),
      base64Char (b1 % 256 % 16 * 4 + b2 % 256 / 64),
      base64Char (b2 % 256 % 64)] ++ base64Encode rest

/-- A `v1.Secret` restricted to the field the code reads: its `Data` map from
string keys to byte strings, modelled as an association list. -/
structure Secret where
  data : List (String × List Nat)
deriving DecidableEq

/-- Go map indexing `secret.Data[key]`: the zero value `nil` (empty bytes)
when the key is absent. -/
def secretData (secret : Secret) (key : String) : List Nat :=
  match secret.data.lookup key with
  | some v => v
  | none => []

/-- The attempt closure of `GetCloudConfig` (node.go lines 43-52):
`secretRes` is the result of `Secrets(..).Get`.  On success the attempt
stores the base64 encoding of the `cloud-config` entry and succeeds. -/
def getCloudConfigAttempt (secretRes : Except Err Secret) : Except Err String :=
  match secretRes with
  | .error e => .error e
  | .ok secret => .ok (base64Encode (secretData secret ("cloud-config")))

/-- Statement of the spec: a node readiness record is ready exactly when the
condition list contains a condition of type `Ready` with a true value. -/
def specReady (node : Node) : Prop :=
  ∃ c ∈ node.conditions, c.type = nodeReady ∧ c.status = conditionTrue

instance specReadyDecidable (node : Node) : Decidable (specReady node) := by
  unfold specReady
  infer_instance

/-- Statement of the spec: `readyCount` is the number of distinct observed
node names whose condition list has a true `Ready` condition. -/
def specReadyCount (items : List Node) : Nat :=
  ((items.filter fun node => decide (specReady node)).map Node.name).toFinset.card

/-- The node set of the spec scenario: `a` and `c` Ready, `b` not Ready. -/
def demoNodes : List Node :=
  [⟨"a", [⟨"Ready", "True"⟩]⟩, ⟨"b", [⟨"Ready", "False"⟩]⟩,
    ⟨"c", [⟨"Ready", "True"⟩]⟩]

/-- A secret whose data holds no `cloud-config` entry. -/
def demoSecret : Secret := ⟨[(("user-data"), [104, 105])]⟩

/-- A ready node used by concrete scenarios. -/
def demoReadyNode : Node := ⟨"n1", [⟨"Ready", "True"⟩]⟩

/-- The node delivered by a successful fetch, with an inert default on the
error side (used only to describe lists for which every fetch succeeded). -/
def fetchedNode (fetch : String → Except Err Node) (n : String) : Node :=
  match fetch n with
  | .ok node => node
  | .error _ => ⟨"", []⟩

/-- A fetch that answers every name with the same ready node `n`. -/
def dupFetch : String → Except Err Node :=
  fun _ => Except.ok ⟨"n", [⟨"Ready", "True"⟩]⟩

theorem nodeIsReady_iff (node : Node) : nodeIsReady node = true ↔ specReady node := by
  simp [nodeIsReady, specReady, List.any_eq_true]

theorem nodeIsReady_eq_decide (node : Node) :
    nodeIsReady node = decide (specReady node) := by
  rw [Bool.eq_iff_iff, decide_eq_true_eq, nodeIsReady_iff]

theorem readyNames_length (items : List Node) :
    (readyNames items).length = specReadyCount items := by
  unfold readyNames specReadyCount
  rw [List.card_toFinset]
  have hf : items.filter nodeIsReady =
      items.filter fun node => decide (specReady node) := by
    apply List.filter_congr
    intro node _
    exact nodeIsReady_eq_decide node
  rw [hf]

theorem nodeLine_mem (ready : List String) (node : Node) :
    nodeLine ready node =
      "* " ++ node.name ++ " | " ++
        (if node.name ∈ ready then ("Ready" : String)
          else ("NotReady" : String)) ++ "\n" := by
  unfold nodeLine
  by_cases hm : node.name ∈ ready
  · simp [hm, List.elem_eq_true_of_mem hm]
  · have hc : ready.contains node.name = false := by
      simp [List.elem_iff, hm]
    simp [hm, hc]

/-- C1 is refuted on the code: when create fails with an error that is not
AlreadyExists (here a generic transport error), the attempt closure of
`CreateNodeGroup` falls through to its final `return nil` and reports
success instead of returning the error, so the attempt succeeds although the
create failed for a reason other than AlreadyExists. -/
theorem createNodeGroup_swallows_other_create_errors :
    createNodeGroupAttempt (some (Err.other ("connection refused")))
      (Except.ok []) (fun _ => none) = none := rfl

/-- C2: for every delete attempt, node or node-group, the attempt succeeds
exactly when the backend call succeeded or reported not-found, every other
non-nil error is returned as the attempt failure, and deleting an
already-absent name returns success. -/
theorem delete_attempt_not_found_is_success (deleteRes : Option Err) :
    (deleteNodeAttempt deleteRes = none ↔
      (deleteRes = none ∨ deleteRes = some Err.notFound)) ∧
    (∀ e, deleteRes = some e → isNotFound e = false →
      deleteNodeAttempt deleteRes = some e) ∧
    (deleteNodeGroupAttempt deleteRes = none ↔
      (deleteRes = none ∨ deleteRes = some Err.notFound)) ∧
    (∀ e, deleteRes = some e → isNotFound e = false →
      deleteNodeGroupAttempt deleteRes = some e) ∧
    deleteNodeAttempt (some Err.notFound) = none ∧
    deleteNodeGroupAttempt (some Err.notFound) = none := by
  refine ⟨?_, ?_, ?_, ?_, rfl, rfl⟩
  · cases deleteRes with
    | none => simp [deleteNodeAttempt]
    | some e => cases e <;> simp [deleteNodeAttempt, isNotFound]
  · rintro e rfl he
    cases e <;> simp_all [deleteNodeAttempt, isNotFound]
  · cases deleteRes with
    | none => simp [deleteNodeGroupAttempt]
    | some e => cases e <;> simp [deleteNodeGroupAttempt, isNotFound]
  · rintro e rfl he
    cases e <;> simp_all [deleteNodeGroupAttempt, isNotFound]

theorem delete_attempt_not_found_is_success_witness :
    deleteNodeAttempt (some Err.notFound) = none :=
  (delete_attempt_not_found_is_success (some Err.notFound)).2.2.2.2.1

/-- C8: every exposed operation runs under its fixed policy: node-group
upsert 45 attempts at 15s, node and node-group delete 45 attempts at 10s,
template listing 10 attempts at 5s, and the three readiness waits 100
attempts at 20s. -/
theorem operation_policies :
    createNodeGroupPolicy = ⟨45, 15⟩ ∧ deleteNodePolicy = ⟨45, 10⟩ ∧
    deleteNodeGroupPolicy = ⟨45, 10⟩ ∧ getNodeGroupTemplatesPolicy = ⟨10, 5⟩ ∧
    waitForSingleNodePolicy = ⟨100, 20⟩ ∧ waitForNodesPolicy = ⟨100, 20⟩ ∧
    waitForNodesListPolicy = ⟨100, 20⟩ :=
  ⟨rfl, rfl, rfl, rfl, rfl, rfl, rfl⟩

/-- C10: when the bootstrap secret exists but its data holds no
`cloud-config` key, the fetch attempt succeeds on that attempt and returns
the base64 encoding of empty bytes, which is the empty string. -/
theorem cloud_config_missing_key_yields_empty (secret : Secret)
    (h : secret.data.lookup ("cloud-config") = none) :
    getCloudConfigAttempt (Except.ok secret) = Except.ok (base64Encode []) ∧
    base64Encode [] = "" := by
  have hd : secretData secret ("cloud-config") = [] := by
    unfold secretData
    rw [h]
  exact ⟨by simp [getCloudConfigAttempt, hd], rfl⟩

theorem cloud_config_missing_key_yields_empty_witness :
    demoSecret.data.lookup ("cloud-config") = none ∧
    getCloudConfigAttempt (Except.ok demoSecret) = Except.ok (base64Encode []) :=
  ⟨by decide, (cloud_config_missing_key_yields_empty demoSecret (by decide)).1⟩

/-- C3: for every observed node sequence and non-negative desired count, the
whole-group readiness attempt is satisfied exactly when the number of
distinct observed node names having a Ready condition with value true
reaches the desired count; a node counts as ready exactly when its condition
list contains such a condition, so a node with no true Ready condition is
not-ready. -/
theorem readiness_satisfied_iff (items : List Node) (desired : Nat) :
    (waitForNodesAttempt (Except.ok items) (desired : Int) = none ↔
      specReadyCount items ≥ desired) ∧
    (∀ node, nodeIsReady node = true ↔ specReady node) := by
  refine ⟨?_, nodeIsReady_iff⟩
  have hlen := readyNames_length items
  have hred : waitForNodesAttempt (Except.ok items) (desired : Int) =
      if ((readyNames items).length : Int) ≥ (desired : Int) then none
      else some (Err.other (trimSuffix
        (readinessMessage items (desired : Int)) ("\n"))) := rfl
  have hcast : (((readyNames items).length : Int) ≥ (desired : Int)) ↔
      specReadyCount items ≥ desired := by
    rw [ge_iff_le, hlen]
    exact_mod_cast Iff.rfl
  rw [hred]
  rcases Decidable.em (specReadyCount items ≥ desired) with h | h
  · rw [if_pos (hcast.mpr h)]
    simp [h]
  · rw [if_neg (fun hc => h (hcast.mp hc))]
    simp [h]

/-- C4: the readiness summary is the leading line counting ready versus
desired nodes followed by one line per observed node in input order, each
labelled Ready or NotReady; on the scenario node set the attempt is
satisfied and the summary starts with the expected count line. -/
theorem readiness_summary_structure (items : List Node) (desired : Int) :
    readinessMessage items desired =
      "Nodes Ready " ++ toString (specReadyCount items) ++ " of " ++
        toString desired ++ "\n" ++
      String.join (items.map fun node =>
        "* " ++ node.name ++ " | " ++
          (if node.name ∈ readyNames items then ("Ready" : String)
            else ("NotReady" : String)) ++ "\n") ∧
    waitForNodesAttempt (Except.ok demoNodes) (2 : Int) = none ∧
    (∃ rest, readinessMessage demoNodes 2 = ("Nodes Ready 2 of 2") ++ rest) := by
  refine ⟨?_, by decide,
    ⟨("\n* a | Ready\n* b | NotReady\n* c | Ready\n"), by decide⟩⟩
  have hmap : items.map (nodeLine (readyNames items)) =
      items.map fun node =>
        "* " ++ node.name ++ " | " ++
          (if node.name ∈ readyNames items then ("Ready" : String)
            else ("NotReady" : String)) ++ "\n" :=
    List.map_congr_left fun node _ => nodeLine_mem (readyNames items) node
  unfold readinessMessage
  rw [readyNames_length, hmap]

/-- C5: the single-node readiness wait runs under policy 100 attempts at
20s; a fetch failure, not-found included (no short-circuit), is returned as
the attempt failure; a fetched node without a true Ready condition fails the
attempt with the not-Ready error; and the attempt succeeds exactly when the
fetched node has a Ready condition with value true. -/
theorem single_node_wait_attempt (nodeName : String)
    (fetchRes : Except Err Node) :
    waitForSingleNodePolicy = ⟨100, 20⟩ ∧
    (∀ e, fetchRes = Except.error e →
      waitForSingleNodeAttempt nodeName fetchRes = some e) ∧
    waitForSingleNodeAttempt nodeName (Except.error Err.notFound) =
      some Err.notFound ∧
    (∀ node, fetchRes = Except.ok node →
      (waitForSingleNodeAttempt nodeName fetchRes = none ↔ specReady node) ∧
      (¬ specReady node → waitForSingleNodeAttempt nodeName fetchRes =
        some (Err.other (("node \x22" ++ nodeName ++ "\x22 is not Ready yet"))))) := by
  refine ⟨rfl, ?_, rfl, ?_⟩
  · rintro e rfl
    rfl
  · rintro node rfl
    have hiff := nodeIsReady_iff node
    cases hb : nodeIsReady node with
    | true =>
      rw [hb] at hiff
      have hs : specReady node := hiff.mp rfl
      constructor
      · simp [waitForSingleNodeAttempt, hb, hs]
      · intro hn
        exact absurd hs hn
    | false =>
      rw [hb] at hiff
      have hn : ¬ specReady node := fun hs => by simpa using hiff.mpr hs
      constructor
      · simp [waitForSingleNodeAttempt, hb, hn]
      · intro _
        simp [waitForSingleNodeAttempt, hb]

theorem single_node_wait_attempt_witness :
    waitForSingleNodeAttempt ("n1") (Except.ok demoReadyNode) = none :=
  (((single_node_wait_attempt ("n1")
    (Except.ok demoReadyNode)).2.2.2 demoReadyNode rfl).1).mpr (by decide)

theorem fetchAll_error_iff (fetch : String → Except Err Node) :
    ∀ names : List String,
      (∃ e, fetchAll fetch names = Except.error e) ↔
        (∃ n ∈ names, ∃ e, fetch n = Except.error e)
  | [] => by simp [fetchAll]
  | n :: rest => by
    cases hf : fetch n with
    | error e =>
      constructor
      · intro _
        exact ⟨n, by simp, e, hf⟩
      · intro _
        exact ⟨e, by simp [fetchAll, hf]⟩
    | ok node =>
      have ih := fetchAll_error_iff fetch rest
      cases hr : fetchAll fetch rest with
      | error e =>
        constructor
        · intro _
          obtain ⟨m, hm, eb, he⟩ := ih.mp ⟨e, hr⟩
          exact ⟨m, List.mem_cons_of_mem n hm, eb, he⟩
        · intro _
          exact ⟨e, by simp [fetchAll, hf, hr]⟩
      | ok nodes =>
        constructor
        · rintro ⟨e, he⟩
          rw [show fetchAll fetch (n :: rest) = Except.ok (node :: nodes) from by
            simp [fetchAll, hf, hr]] at he
          cases he
        · rintro ⟨m, hm, e, he⟩
          rcases List.mem_cons.mp hm with rfl | hm
          · rw [hf] at he
            cases he
          · obtain ⟨eb, he2⟩ := ih.mpr ⟨m, hm, e, he⟩
            rw [hr] at he2
            cases he2

theorem fetchAll_ok_map (fetch : String → Except Err Node) :
    ∀ (names : List String) (items : List Node),
      fetchAll fetch names = Except.ok items →
      items = names.map (fetchedNode fetch)
  | [], items, h => by
    simp [fetchAll] at h
    simp [h.symm]
  | n :: rest, items, h => by
    cases hf : fetch n with
    | error e =>
      rw [show fetchAll fetch (n :: rest) = Except.error e from by
        simp [fetchAll, hf]] at h
      cases h
    | ok node =>
      cases hr : fetchAll fetch rest with
      | error e =>
        rw [show fetchAll fetch (n :: rest) = Except.error e from by
          simp [fetchAll, hf, hr]] at h
        cases h
      | ok nodes =>
        rw [show fetchAll fetch (n :: rest) = Except.ok (node :: nodes) from by
          simp [fetchAll, hf, hr]] at h
        cases h
        have ih := fetchAll_ok_map fetch rest nodes hr
        simp [List.map_cons, ← ih, fetchedNode, hf]

/-- C6: the named-list readiness wait runs under policy 100 attempts at 20s,
its desired count is the number of caller-supplied names, a fetch failure
for any single name fails the whole attempt with that error (no partial
snapshot is evaluated), the attempt succeeds exactly when the snapshot is
satisfied, and on non-satisfaction the attempt fails with the summary,
trailing newline removed, as the error text. -/
theorem named_list_wait_attempt (fetch : String → Except Err Node)
    (names : List String) :
    waitForNodesListPolicy = ⟨100, 20⟩ ∧
    ((∃ e, fetchAll fetch names = Except.error e) ↔
      (∃ n ∈ names, ∃ e, fetch n = Except.error e)) ∧
    (∀ e, fetchAll fetch names = Except.error e →
      waitForNodesListAttempt fetch names = some e) ∧
    (∀ items, fetchAll fetch names = Except.ok items →
      ((waitForNodesListAttempt fetch names = none ↔
        specReadyCount items ≥ names.length) ∧
      (specReadyCount items < names.length →
        waitForNodesListAttempt fetch names =
          some (Err.other (trimSuffix
            (readinessMessage items (names.length : Int)) ("\n")))))) := by
  refine ⟨rfl, fetchAll_error_iff fetch names, ?_, ?_⟩
  · intro e he
    unfold waitForNodesListAttempt
    rw [he]
  · intro items hi
    have hlen := readyNames_length items
    have hred : waitForNodesListAttempt fetch names =
        if (readyNames items).length ≥ names.length then none
        else some (Err.other (trimSuffix
          (readinessMessage items (names.length : Int)) ("\n"))) := by
      unfold waitForNodesListAttempt
      rw [hi]
    rw [hred, hlen]
    constructor
    · rcases Decidable.em (specReadyCount items ≥ names.length) with h | h
      · rw [if_pos h]
        simp [h]
      · rw [if_neg h]
        simp [h]
    · intro h
      rw [if_neg (by omega)]

theorem named_list_wait_attempt_witness :
    waitForNodesListAttempt (fun _ => Except.ok demoReadyNode) ["n1"] = none :=
  (((named_list_wait_attempt (fun _ => Except.ok demoReadyNode) ["n1"]).2.2.2
    [demoReadyNode] rfl).1).mpr (by decide)

theorem runCount_all_fail (attempt : Nat → Option Err) (n : Nat) :
    ∀ i : Nat, 1 ≤ n →
      (∀ j, i ≤ j → j < i + n → (attempt j).isSome = true) →
      runCount attempt i n = (attempt (i + n - 1), n) := by
  induction n with
  | zero =>
    intro i h _
    exact absurd h (by omega)
  | succ m ih =>
    intro i _ h
    obtain ⟨e, he⟩ := Option.isSome_iff_exists.mp (h i le_rfl (by omega))
    cases m with
    | zero =>
      simp [runCount, he]
    | succ m2 =>
      have hrec := ih (i + 1) (by omega)
        (fun j hj1 hj2 => h j (by omega) (by omega))
      have hred : runCount attempt i (m2 + 1 + 1) =
          ((runCount attempt (i + 1) (m2 + 1)).1,
            (runCount attempt (i + 1) (m2 + 1)).2 + 1) := by
        rw [runCount.eq_def]
        simp only [he]
      rw [hred, hrec]
      have h1 : i + 1 + (m2 + 1) - 1 = i + (m2 + 1 + 1) - 1 := by omega
      show (attempt (i + 1 + (m2 + 1) - 1), m2 + 1 + 1) =
        (attempt (i + (m2 + 1 + 1) - 1), m2 + 1 + 1)
      rw [h1]

theorem runCount_first_success (attempt : Nat → Option Err) (n : Nat) :
    ∀ i k : Nat, i ≤ k → k < i + n → attempt k = none →
      (∀ j, i ≤ j → j < k → (attempt j).isSome = true) →
      runCount attempt i n = (none, k + 1 - i) := by
  induction n with
  | zero =>
    intro i k hik hk _ _
    exact absurd hk (by omega)
  | succ m ih =>
    intro i k hik hk hks h
    rcases eq_or_lt_of_le hik with rfl | hlt
    · have hred : runCount attempt i (m + 1) = (none, 1) := by
        simp [runCount, hks]
      rw [hred]
      have h1 : i + 1 - i = 1 := by omega
      rw [h1]
    · obtain ⟨e, he⟩ := Option.isSome_iff_exists.mp (h i le_rfl hlt)
      cases m with
      | zero => omega
      | succ m2 =>
        have hrec := ih (i + 1) k (by omega) (by omega) hks
          (fun j hj1 hj2 => h j (by omega) hj2)
        have hred : runCount attempt i (m2 + 1 + 1) =
            ((runCount attempt (i + 1) (m2 + 1)).1,
              (runCount attempt (i + 1) (m2 + 1)).2 + 1) := by
          rw [runCount.eq_def]
          simp only [he]
        rw [hred, hrec]
        have h1 : k + 1 - (i + 1) + 1 = k + 1 - i := by omega
        show ((none : Option Err), k + 1 - (i + 1) + 1) =
          ((none : Option Err), k + 1 - i)
        rw [h1]

/-- C7: under any policy with `maxAttempts = m ≥ 1` the executor behaves as
follows: an attempt function that fails on every invocation is invoked
exactly m times and the executor returns the error of invocation m, earlier
errors being discarded; an attempt function succeeding on invocation k ≤ m
after failing on all earlier ones is invoked exactly k times and the
executor returns that success. -/
theorem retry_executor_invocations (m s : Nat) (attempt : Nat → Option Err)
    (hm : 1 ≤ m) :
    ((∀ j, 1 ≤ j → j ≤ m → (attempt j).isSome = true) →
      runCount attempt 1 m = (attempt m, m) ∧
      retryRun ⟨m, s⟩ attempt = attempt m) ∧
    (∀ k, 1 ≤ k → k ≤ m → attempt k = none →
      (∀ j, 1 ≤ j → j < k → (attempt j).isSome = true) →
      runCount attempt 1 m = (none, k) ∧
      retryRun ⟨m, s⟩ attempt = none) := by
  constructor
  · intro h
    have hall := runCount_all_fail attempt m 1 hm
      (fun j hj1 hj2 => h j hj1 (by omega))
    have h1 : 1 + m - 1 = m := by omega
    rw [h1] at hall
    refine ⟨hall, ?_⟩
    unfold retryRun
    rw [hall]
  · intro k hk1 hkm hks h
    have hfst := runCount_first_success attempt m 1 k hk1 (by omega) hks h
    have h1 : k + 1 - 1 = k := by omega
    rw [h1] at hfst
    refine ⟨hfst, ?_⟩
    unfold retryRun
    rw [hfst]

theorem retry_executor_invocations_witness :
    runCount (fun j => if j == 2 then none else some Err.notFound) 1 2 =
      (none, 2) :=
  ((retry_executor_invocations 2 0
      (fun j => if j == 2 then none else some Err.notFound) (by decide)).2 2
    (by decide) (by decide) (by decide)
    (fun j hj1 hj2 => by
      have hj : j = 1 := by omega
      subst hj
      decide)).1

/-- C9: in the named-list wait, ready nodes are counted by distinct fetched
node name while the desired count is the length of the request list, so for
a list containing a duplicate name the ready count is bounded by the number
of distinct names, strictly below the list length, and the attempt can never
succeed even when every fetch succeeds and every fetched node is Ready. -/
theorem duplicate_names_never_satisfied (fetch : String → Except Err Node)
    (names : List String) (hdup : ¬ names.Nodup) :
    (∀ items, fetchAll fetch names = Except.ok items →
      (readyNames items).length ≤ names.dedup.length) ∧
    names.dedup.length < names.length ∧
    waitForNodesListAttempt fetch names ≠ none := by
  have hbound : ∀ items, fetchAll fetch names = Except.ok items →
      (readyNames items).length ≤ names.dedup.length := by
    intro items hi
    have himap := fetchAll_ok_map fetch names items hi
    have h1 : (readyNames items).length =
        ((items.filter nodeIsReady).map Node.name).toFinset.card := by
      rw [List.card_toFinset]
      rfl
    have h2 : ((items.filter nodeIsReady).map Node.name).toFinset ⊆
        (items.map Node.name).toFinset := by
      intro a ha
      rw [List.mem_toFinset] at ha ⊢
      obtain ⟨nd, hnd, rfl⟩ := List.mem_map.mp ha
      exact List.mem_map_of_mem Node.name (List.mem_of_mem_filter hnd)
    have h3 : (items.map Node.name).toFinset =
        names.toFinset.image (Node.name ∘ fetchedNode fetch) := by
      rw [himap, List.map_map]
      ext a
      simp
    calc (readyNames items).length
        = ((items.filter nodeIsReady).map Node.name).toFinset.card := h1
      _ ≤ (items.map Node.name).toFinset.card := Finset.card_le_card h2
      _ = (names.toFinset.image (Node.name ∘ fetchedNode fetch)).card := by
          rw [h3]
      _ ≤ names.toFinset.card := Finset.card_image_le
      _ = names.dedup.length := List.card_toFinset names
  have hlt : names.dedup.length < names.length := by
    have hle : names.dedup.length ≤ names.length :=
      names.dedup_sublist.length_le
    rcases lt_or_eq_of_le hle with h | h
    · exact h
    · exact absurd (List.dedup_eq_self.mp
        (names.dedup_sublist.eq_of_length h)) hdup
  refine ⟨hbound, hlt, ?_⟩
  intro hnone
  rcases hfa : fetchAll fetch names with e | items
  · unfold waitForNodesListAttempt at hnone
    rw [hfa] at hnone
    simp at hnone
  · have hb := hbound items hfa
    have hred : waitForNodesListAttempt fetch names =
        if (readyNames items).length ≥ names.length then none
        else some (Err.other (trimSuffix
          (readinessMessage items (names.length : Int)) ("\n"))) := by
      unfold waitForNodesListAttempt
      rw [hfa]
    rw [hred, if_neg (by omega)] at hnone
    cases hnone

theorem duplicate_names_never_satisfied_witness :
    ¬ (["n", "n"] : List String).Nodup ∧
    waitForNodesListAttempt dupFetch ["n", "n"] ≠ none ∧
    waitForNodesListAttempt dupFetch ["n", "n"] =
      some (Err.other ("Nodes Ready 1 of 2\n* n | Ready\n* n | Ready")) :=
  ⟨by decide,
    (duplicate_names_never_satisfied dupFetch ["n", "n"] (by decide)).2.2,
    by decide⟩

end Converge
